import Mathlib

/-!
Verification of the core logic of dodo (a graphical notmuch-based mail client):
the thread flattening function, the thread-list model, the tag mutators and the
compose/send state machine. Each definition is a shallow embedding of the
corresponding Python function from src/dodo.
-/

namespace Dodo

/-- A message record, as parsed from one JSON object of the indexer's
"show" output. Optional fields model JSON keys that may be absent. -/
structure Msg where
  id : String
  timestamp : Int
  tags : Option (List String)
  headers : Option (List (String × String))
deriving DecidableEq

/-- A leaf of the raw thread tree: in Python, `dfs` appends any non-list
value to the flat list. A leaf is either a well-formed message object
(carrying a "timestamp" key) or any other JSON value (malformed). -/
inductive Leaf where
  | msg (m : Msg)
  | bad
deriving DecidableEq

mutual
/-- The raw nested thread structure returned by "notmuch show": a node is
either a non-list leaf or a list of child nodes. -/
inductive ThreadNode where
  | msgLeaf (m : Msg)
  | badLeaf
  | node (children : Forest)
/-- A list of thread nodes (the Python list the `dfs` loop iterates over). -/
inductive Forest where
  | nil
  | cons (t : ThreadNode) (f : Forest)
end

mutual
/-- The `dfs` helper of `flat_thread`: depth-first, left-to-right collection
of every leaf into one sequence. -/
def collectLeaves : ThreadNode → List Leaf
  | .msgLeaf m => [Leaf.msg m]
  | .badLeaf => [Leaf.bad]
  | .node cs => collectForest cs
/-- The helper `dfs` on a list node: recurse over the children in order. -/
def collectForest : Forest → List Leaf
  | .nil => []
  | .cons t f => collectLeaves t ++ collectForest f
end

mutual
/-- The number of leaves of a thread tree. -/
def leafCount : ThreadNode → Nat
  | .msgLeaf _ => 1
  | .badLeaf => 1
  | .node cs => leafCountF cs
/-- The number of leaves of a forest. -/
def leafCountF : Forest → Nat
  | .nil => 0
  | .cons t f => leafCount t + leafCountF f
end

/-- The error raised by `thread.sort(key=lambda m: m['timestamp'])` when some
collected leaf is not a message object with a "timestamp" key (a KeyError or
TypeError escaping `flat_thread`). -/
inductive ParseError where
  | keyError
deriving DecidableEq

/-- Key extraction performed by `thread.sort(key=lambda m: m['timestamp'])`:
Python's sort computes the key of every element (left to right) before
sorting, so the first malformed leaf raises and no list is returned. -/
def checkMsgs : List Leaf → Except ParseError (List Msg)
  | [] => .ok []
  | Leaf.msg m :: ls => (checkMsgs ls).map (fun t => m :: t)
  | Leaf.bad :: _ => .error ParseError.keyError

/-- The message leaves of a collected leaf sequence, in order. -/
def msgsOf (ls : List Leaf) : List Msg :=
  ls.filterMap (fun l => match l with | Leaf.msg m => some m | Leaf.bad => none)

/-- The sort key comparison of `flat_thread`: ascending timestamp. -/
def msgLe (a b : Msg) : Prop := a.timestamp ≤ b.timestamp

instance : DecidableRel msgLe :=
  fun a b => inferInstanceAs (Decidable (a.timestamp ≤ b.timestamp))

instance : IsTotal Msg msgLe := ⟨fun a b => Int.le_total a.timestamp b.timestamp⟩

instance : IsTrans Msg msgLe := ⟨fun _ _ _ h1 h2 => le_trans h1 h2⟩

/-- The function `flat_thread(d)`: collect all leaves depth-first, then sort by the
"timestamp" key. Python's `list.sort` is a stable sort, so it is modelled by
insertion sort with the reflexive order `msgLe`, which is sorted and keeps
equal keys in input order: those two properties determine the output of any
stable sort uniquely. A malformed leaf makes the key extraction raise. -/
def flat_thread (d : ThreadNode) : Except ParseError (List Msg) :=
  match checkMsgs (collectLeaves d) with
  | .ok thread => .ok (List.insertionSort msgLe thread)
  | .error e => .error e

/-- A thread tree all of whose leaves are message records. -/
def wellFormed (d : ThreadNode) : Prop := Leaf.bad ∉ collectLeaves d

instance (d : ThreadNode) : Decidable (wellFormed d) :=
  inferInstanceAs (Decidable (Leaf.bad ∉ collectLeaves d))

/-- The messages of a well-formed tree in depth-first, left-to-right order. -/
def dfsMessages (d : ThreadNode) : List Msg := msgsOf (collectLeaves d)

mutual
theorem length_collectLeaves : ∀ t : ThreadNode, (collectLeaves t).length = leafCount t
  | .msgLeaf _ => rfl
  | .badLeaf => rfl
  | .node cs => by
      simp only [collectLeaves, leafCount]
      exact length_collectForest cs
theorem length_collectForest : ∀ f : Forest, (collectForest f).length = leafCountF f
  | .nil => rfl
  | .cons t f => by
      simp only [collectForest, leafCountF, List.length_append]
      rw [length_collectLeaves t, length_collectForest f]
end

theorem checkMsgs_ok : ∀ ls : List Leaf, Leaf.bad ∉ ls → checkMsgs ls = .ok (msgsOf ls)
  | [], _ => rfl
  | Leaf.msg m :: ls, h => by
      have h2 : Leaf.bad ∉ ls := fun hm => h (List.mem_cons_of_mem _ hm)
      simp only [checkMsgs, checkMsgs_ok ls h2, Except.map, msgsOf, List.filterMap]
  | Leaf.bad :: ls, h => absurd (List.mem_cons_self _ _) h

theorem checkMsgs_err : ∀ ls : List Leaf, Leaf.bad ∈ ls → checkMsgs ls = .error ParseError.keyError
  | [], h => absurd h (List.not_mem_nil _)
  | Leaf.msg m :: ls, h => by
      have h2 : Leaf.bad ∈ ls := by
        rcases List.mem_cons.mp h with h1 | h1
        · exact absurd h1 (by simp)
        · exact h1
      simp only [checkMsgs, checkMsgs_err ls h2, Except.map]
  | Leaf.bad :: ls, _ => rfl

theorem msgsOf_length : ∀ ls : List Leaf, Leaf.bad ∉ ls → (msgsOf ls).length = ls.length
  | [], _ => rfl
  | Leaf.msg m :: ls, h => by
      have h2 : Leaf.bad ∉ ls := fun hm => h (List.mem_cons_of_mem _ hm)
      simp only [msgsOf, List.filterMap, List.length_cons]
      have := msgsOf_length ls h2
      simp only [msgsOf] at this
      rw [this]
  | Leaf.bad :: ls, h => absurd (List.mem_cons_self _ _) h

/-- The Boolean predicate selecting the messages with a given timestamp. -/
def timestampIs (ts : Int) (m : Msg) : Bool := decide (m.timestamp = ts)

theorem filter_orderedInsert (ts : Int) (a : Msg) :
    ∀ l : List Msg,
      (List.orderedInsert msgLe a l).filter (timestampIs ts)
        = if timestampIs ts a then a :: l.filter (timestampIs ts)
          else l.filter (timestampIs ts)
  | [] => by
      simp only [List.orderedInsert, List.filter]
      by_cases h : timestampIs ts a <;> simp [h]
  | x :: xs => by
      by_cases hax : msgLe a x
      · rw [List.orderedInsert_of_le msgLe _ hax]
        by_cases h : timestampIs ts a <;> simp [List.filter, h]
      · simp only [List.orderedInsert, if_neg hax]
        have hlt : x.timestamp < a.timestamp := by
          simp only [msgLe, not_le] at hax
          exact hax
        by_cases hpa : a.timestamp = ts
        · have hpx : timestampIs ts x = false := by
            simp only [timestampIs, decide_eq_false_iff_not]
            omega
          have hpa2 : timestampIs ts a = true := by
            simp [timestampIs, hpa]
          simp only [List.filter, hpx, filter_orderedInsert ts a xs, hpa2, if_true]
        · have hpa2 : timestampIs ts a = false := by
            simp [timestampIs, hpa]
          simp only [List.filter, filter_orderedInsert ts a xs, hpa2, if_false]
          by_cases hpx : timestampIs ts x <;> simp [hpx]

theorem filter_insertionSort (ts : Int) :
    ∀ l : List Msg,
      (List.insertionSort msgLe l).filter (timestampIs ts) = l.filter (timestampIs ts)
  | [] => rfl
  | x :: xs => by
      simp only [List.insertionSort]
      rw [filter_orderedInsert, filter_insertionSort ts xs]
      by_cases h : timestampIs ts x <;> simp [List.filter, h]

/-- C1: for every thread tree whose leaves are message records, `flat_thread`
returns a list whose length is the number of leaves, whose timestamps are
non-decreasing, and in which any two messages of equal timestamp appear in
their original depth-first, left-to-right order (stability of the sort). -/
theorem flat_thread_spec (d : ThreadNode) (h : wellFormed d) :
    ∃ l : List Msg,
      flat_thread d = .ok l
      ∧ l.length = leafCount d
      ∧ List.Sorted msgLe l
      ∧ ∀ ts : Int, l.filter (timestampIs ts) = (dfsMessages d).filter (timestampIs ts) := by
  refine ⟨List.insertionSort msgLe (dfsMessages d), ?_, ?_, ?_, ?_⟩
  · unfold flat_thread
    rw [checkMsgs_ok _ h]
    rfl
  · rw [List.length_insertionSort, dfsMessages, msgsOf_length _ h, length_collectLeaves]
  · exact List.sorted_insertionSort msgLe _
  · intro ts
    exact filter_insertionSort ts _

/-- C6: an input containing a malformed leaf (neither a message record nor a
list of children) makes `flat_thread` signal an error; no partial list is
returned. -/
theorem flat_thread_malformed (d : ThreadNode) (h : ¬ wellFormed d) :
    flat_thread d = .error ParseError.keyError := by
  have hmem : Leaf.bad ∈ collectLeaves d := not_not.mp h
  unfold flat_thread
  rw [checkMsgs_err _ hmem]

/-- A concrete message record used in witnesses and counterexamples. -/
def mkMsg (i : String) (ts : Int) (tags : Option (List String)) : Msg :=
  { id := i, timestamp := ts, tags := tags, headers := none }

/-- A concrete well-formed thread tree: root list with one message and one
nested list of two messages, with a timestamp tie between the leaves. -/
def sampleThread : ThreadNode :=
  ThreadNode.node (Forest.cons (ThreadNode.msgLeaf (mkMsg "m1" 5 none))
    (Forest.cons (ThreadNode.node
      (Forest.cons (ThreadNode.msgLeaf (mkMsg "m2" 3 none))
        (Forest.cons (ThreadNode.msgLeaf (mkMsg "m3" 3 none)) Forest.nil)))
      Forest.nil))

/-- Witness for C1 at a concrete tree. -/
theorem flat_thread_spec_witness :
    wellFormed sampleThread
    ∧ ∃ l : List Msg,
        flat_thread sampleThread = .ok l
        ∧ l.length = leafCount sampleThread
        ∧ List.Sorted msgLe l
        ∧ ∀ ts : Int,
            l.filter (timestampIs ts) = (dfsMessages sampleThread).filter (timestampIs ts) :=
  ⟨by decide, flat_thread_spec sampleThread (by decide)⟩

/-- A concrete malformed thread tree: the second leaf is not a message. -/
def sampleBadThread : ThreadNode :=
  ThreadNode.node (Forest.cons (ThreadNode.msgLeaf (mkMsg "m1" 5 none))
    (Forest.cons ThreadNode.badLeaf Forest.nil))

/-- Witness for C6 at a concrete tree. -/
theorem flat_thread_malformed_witness :
    ¬ wellFormed sampleBadThread
    ∧ flat_thread sampleBadThread = .error ParseError.keyError :=
  ⟨by decide, flat_thread_malformed sampleBadThread (by decide)⟩

/-! ### ThreadModel: default message selection (thread.py, `default_message`) -/

/-- The unread test used throughout: `'tags' in m and 'unread' in m['tags']`. -/
def isUnread (m : Msg) : Bool :=
  match m.tags with
  | some ts => decide ("unread" ∈ ts)
  | none => false

/-- The index of the first unread message found by the `for i, m in
enumerate(self.thread)` loop of `default_message`, if any. -/
def findUnreadIdx : List Msg → Option Nat
  | [] => none
  | m :: ms => if isUnread m then some 0 else (findUnreadIdx ms).map (fun i => i + 1)

/-- The method `ThreadModel.default_message`: index of the first unread message, else
`num_messages() - 1` (which is `-1` on an empty thread). -/
def default_message (thread : List Msg) : Int :=
  match findUnreadIdx thread with
  | some i => (i : Int)
  | none => (thread.length : Int) - 1

theorem findUnreadIdx_some : ∀ (t : List Msg) (i : Nat) (m : Msg),
    t.get? i = some m → isUnread m = true →
    (∀ j, j < i → ∀ mj : Msg, t.get? j = some mj → isUnread mj = false) →
    findUnreadIdx t = some i
  | [], i, m, hget, _, _ => by simp at hget
  | x :: xs, 0, m, hget, hu, _ => by
      simp only [List.get?] at hget
      cases hget
      simp [findUnreadIdx, hu]
  | x :: xs, i + 1, m, hget, hu, hfirst => by
      have hx : isUnread x = false := hfirst 0 (Nat.succ_pos i) x rfl
      simp only [List.get?] at hget
      have ih := findUnreadIdx_some xs i m hget hu
        (fun j hj mj hg => hfirst (j + 1) (Nat.succ_lt_succ hj) mj hg)
      simp [findUnreadIdx, hx, ih]

theorem findUnreadIdx_none : ∀ t : List Msg,
    (∀ m ∈ t, isUnread m = false) → findUnreadIdx t = none
  | [], _ => rfl
  | x :: xs, h => by
      have hx : isUnread x = false := h x (List.mem_cons_self _ _)
      have ih := findUnreadIdx_none xs (fun m hm => h m (List.mem_cons_of_mem _ hm))
      simp [findUnreadIdx, hx, ih]

/-- C8: `default_message` returns the index of the first message whose tag set
contains "unread" when one exists, otherwise the index of the last message;
on an empty thread it returns `-1`. -/
theorem default_message_spec (t : List Msg) :
    (t = [] → default_message t = -1)
    ∧ (∀ (i : Nat) (m : Msg), t.get? i = some m → isUnread m = true →
        (∀ j, j < i → ∀ mj : Msg, t.get? j = some mj → isUnread mj = false) →
        default_message t = (i : Int))
    ∧ ((∀ m ∈ t, isUnread m = false) → default_message t = (t.length : Int) - 1) := by
  refine ⟨?_, ?_, ?_⟩
  · intro h
    subst h
    rfl
  · intro i m hget hu hfirst
    unfold default_message
    rw [findUnreadIdx_some t i m hget hu hfirst]
  · intro h
    unfold default_message
    rw [findUnreadIdx_none t h]

/-- A concrete thread for the C8 witness: the second message is the first
unread one. -/
def sampleFlat : List Msg :=
  [mkMsg "m1" 1 (some ["inbox"]), mkMsg "m2" 2 (some ["inbox", "unread"]),
   mkMsg "m3" 3 (some ["unread"])]

/-- Witness for C8 at a concrete thread: first unread index is 1. -/
theorem default_message_spec_witness :
    sampleFlat.get? 1 = some (mkMsg "m2" 2 (some ["inbox", "unread"]))
    ∧ isUnread (mkMsg "m2" 2 (some ["inbox", "unread"])) = true
    ∧ default_message sampleFlat = 1 := by
  refine ⟨by decide, by decide, ?_⟩
  exact (default_message_spec sampleFlat).2.1 1 (mkMsg "m2" 2 (some ["inbox", "unread"]))
    (by decide) (by decide)
    (by
      intro j hj mj hg
      have hj0 : j = 0 := by omega
      subst hj0
      simp only [sampleFlat, List.get?] at hg
      cases hg
      decide)

/-! ### ThreadPanel.refresh: selection preservation (thread.py, `refresh`) -/

/-- Qt's `QAbstractItemModel.hasIndex` for this one-column list model: the row must
lie within the current row count. -/
def hasIndex (row : Int) (count : Nat) : Bool :=
  decide (0 ≤ row) && decide (row < (count : Int))

/-- The method `ThreadModel.index(row, 0)`: an invalid `QModelIndex` (modelled as `none`)
when `hasIndex` fails, otherwise an index carrying the row. -/
def modelIndex (row : Int) (count : Nat) : Option Nat :=
  if hasIndex row count then some row.toNat else none

/-- Qt's `QAbstractItemModel.checkIndex` with default options: a legal index is
either the invalid index or a valid index whose row is within the model. -/
def checkIndex (ix : Option Nat) (count : Nat) : Bool :=
  match ix with
  | none => true
  | some r => decide (r < count)

/-- The selection update performed by `ThreadPanel.refresh`: build an index
for the remembered `current_message` row and, since `checkIndex` accepts it
(valid rows are in range and the invalid index is legal), make it current.
An out-of-range `current_message` therefore clears the selection. -/
def refreshSelection (currentMessage : Int) (newCount : Nat) (oldSel : Option Nat) :
    Option Nat :=
  let ix := modelIndex currentMessage newCount
  if checkIndex ix newCount then ix else oldSel

/-- Python list indexing: non-negative indices are in range when below the
length, negative indices count from the end; anything else raises IndexError
(modelled as `none`). -/
def pyIndex (n : Nat) (i : Int) : Option Nat :=
  if 0 ≤ i then (if i < (n : Int) then some i.toNat else none)
  else (if 0 ≤ (n : Int) + i then some ((n : Int) + i).toNat else none)

/-- The method `ThreadModel.message_at(i)`, i.e. `self.thread[i]` with Python indexing. -/
def message_at (thread : List Msg) (i : Int) : Option Msg :=
  (pyIndex thread.length i).bind (fun j => thread.get? j)

/-- C4 counterexample: with a remembered selection index 5 and a new thread of
3 messages, `refresh` does not clamp to the last valid index 2 — it sets the
invalid index (clearing the selection) and the subsequent `message_at` lookup
on index 5 is out of range (an IndexError inside `refresh`). -/
theorem refresh_selection_counterexample :
    refreshSelection 5 3 (some 1) = none
    ∧ refreshSelection 5 3 (some 1) ≠ some 2
    ∧ message_at [mkMsg "m1" 1 none, mkMsg "m2" 2 none, mkMsg "m3" 3 none] 5 = none := by
  refine ⟨by decide, by decide, by decide⟩

/-- C4 amended: after refresh the previously selected index is preserved when
it is still a valid index into the new thread; otherwise the selection is set
to the invalid index (cleared), not clamped, and `message_at` on a stale index
at or above the new length fails with an out-of-range error. -/
theorem refresh_selection_spec (cm : Int) (thread : List Msg) (old : Option Nat) :
    (0 ≤ cm ∧ cm < (thread.length : Int) →
      refreshSelection cm thread.length old = some cm.toNat)
    ∧ (¬ (0 ≤ cm ∧ cm < (thread.length : Int)) →
      refreshSelection cm thread.length old = none)
    ∧ ((thread.length : Int) ≤ cm → message_at thread cm = none) := by
  refine ⟨?_, ?_, ?_⟩
  · intro h
    have hh : hasIndex cm thread.length = true := by
      simp [hasIndex, h.1, h.2]
    simp only [refreshSelection, modelIndex, hh, if_true, checkIndex]
    have : cm.toNat < thread.length := by omega
    simp [this]
  · intro h
    have hh : hasIndex cm thread.length = true → False := by
      intro hc
      simp only [hasIndex, Bool.and_eq_true, decide_eq_true_eq] at hc
      exact h hc
    have hh2 : hasIndex cm thread.length = false := by
      cases hcase : hasIndex cm thread.length
      · rfl
      · exact absurd hcase hh
    simp [refreshSelection, modelIndex, hh2, checkIndex]
  · intro h
    have h0 : 0 ≤ cm := le_trans (Int.ofNat_nonneg _) h
    simp only [message_at, pyIndex, if_pos h0]
    have : ¬ cm < (thread.length : Int) := not_lt.mpr h
    simp [this]

/-- Witness for C4 amended, at the concrete out-of-range index 5. -/
theorem refresh_selection_spec_witness :
    ¬ ((0 : Int) ≤ 5 ∧ (5 : Int) < (([mkMsg "m1" 1 none, mkMsg "m2" 2 none,
        mkMsg "m3" 3 none] : List Msg).length : Int))
    ∧ refreshSelection 5 ([mkMsg "m1" 1 none, mkMsg "m2" 2 none,
        mkMsg "m3" 3 none] : List Msg).length (some 1) = none :=
  ⟨by decide,
    (refresh_selection_spec 5 [mkMsg "m1" 1 none, mkMsg "m2" 2 none, mkMsg "m3" 3 none]
      (some 1)).2.1 (by decide)⟩

/-! ### Tag mutators (thread.py `toggle_message_tag` / `tag_message`,
search.py `toggle_thread_tag` / `tag_thread`) -/

/-- The method `ThreadPanel.toggle_message_tag`: pick the tag expression by membership of
the tag in the current message's tag list. -/
def toggle_message_tag (tags : List String) (tag : String) : String :=
  if tag ∈ tags then "-" ++ tag else "+" ++ tag

/-- The method `SearchPanel.toggle_thread_tag`: the same selection on the thread's tags. -/
def toggle_thread_tag (tags : List String) (tag : String) : String :=
  if tag ∈ tags then "-" ++ tag else "+" ++ tag

/-- The normalization in `ThreadPanel.tag_message`:
`if not ('+' in tag_expr or '-' in tag_expr): tag_expr = '+' + tag_expr`.
The test is containment of a sign character anywhere in the string, not an
inspection of the first character. -/
def tag_message_expr (e : String) : String :=
  if '+' ∈ e.data ∨ '-' ∈ e.data then e else "+" ++ e

/-- The identical normalization in `SearchPanel.tag_thread`. -/
def tag_thread_expr (e : String) : String :=
  if '+' ∈ e.data ∨ '-' ∈ e.data then e else "+" ++ e

/-- C5 counterexample: the expression "foo-bar" has no explicit sign at its
first character, yet the normalization leaves it unchanged instead of
prepending '+', because it contains a '-' in the middle. -/
theorem tag_expr_counterexample :
    "foo-bar".data.head? ≠ some '+'
    ∧ "foo-bar".data.head? ≠ some '-'
    ∧ tag_message_expr "foo-bar" = "foo-bar"
    ∧ tag_message_expr "foo-bar" ≠ "+" ++ "foo-bar"
    ∧ tag_thread_expr "foo-bar" = "foo-bar" := by
  refine ⟨by decide, by decide, by decide, by decide, by decide⟩

/-- C5 amended: `toggleTag` yields "-T" when T is in the target's tag set and
"+T" otherwise (messages and threads alike); the normalization prepends '+'
exactly when the expression contains no '+' and no '-' character anywhere,
and passes the expression through unchanged otherwise. -/
theorem tag_mutator_spec (tags : List String) (tag : String) (e : String) :
    (tag ∈ tags →
      toggle_message_tag tags tag = "-" ++ tag ∧ toggle_thread_tag tags tag = "-" ++ tag)
    ∧ (tag ∉ tags →
      toggle_message_tag tags tag = "+" ++ tag ∧ toggle_thread_tag tags tag = "+" ++ tag)
    ∧ ('+' ∉ e.data ∧ '-' ∉ e.data →
      tag_message_expr e = "+" ++ e ∧ tag_thread_expr e = "+" ++ e)
    ∧ ('+' ∈ e.data ∨ '-' ∈ e.data →
      tag_message_expr e = e ∧ tag_thread_expr e = e) := by
  refine ⟨?_, ?_, ?_, ?_⟩
  · intro h
    constructor <;> simp [toggle_message_tag, toggle_thread_tag, h]
  · intro h
    constructor <;> simp [toggle_message_tag, toggle_thread_tag, h]
  · intro h
    have hn : ¬ ('+' ∈ e.data ∨ '-' ∈ e.data) := by
      intro hc
      rcases hc with hc | hc
      · exact h.1 hc
      · exact h.2 hc
    constructor <;> simp [tag_message_expr, tag_thread_expr, hn]
  · intro h
    constructor <;> simp [tag_message_expr, tag_thread_expr, h]

/-- Witness for C5 amended: toggling "unread" on a message carrying it yields
"-unread", and normalizing the signless expression "spam" yields "+spam". -/
theorem tag_mutator_spec_witness :
    ("unread" ∈ (["inbox", "unread"] : List String)
      ∧ toggle_message_tag ["inbox", "unread"] "unread" = "-unread")
    ∧ ('+' ∉ "spam".data ∧ '-' ∉ "spam".data ∧ tag_message_expr "spam" = "+spam") :=
  ⟨⟨by decide,
      ((tag_mutator_spec ["inbox", "unread"] "unread" "spam").1 (by decide)).1⟩,
    by decide, by decide,
    ((tag_mutator_spec ["inbox", "unread"] "unread" "spam").2.2.1 ⟨by decide, by decide⟩).1⟩

/-! ### Compose and send (compose.py) -/

/-- A draft as parsed by `email.message_from_string(self.panel.message_string)`:
the ordered header fields and the body payload. -/
structure Draft where
  headers : List (String × String)
  payload : String
deriving DecidableEq

/-- The lookup `m[h]`: the value of the first header field with the given name. -/
def firstHeader (hs : List (String × String)) (name : String) : Option String :=
  (hs.find? (fun p => p.1 == name)).map (fun p => p.2)

/-- The `for h in m` loop of `SendmailThread.run`: header names are visited in
order (duplicates included) and `m[h]` yields the first value with that name;
fields named "A" are collected as attachment paths, the rest are copied to the
outgoing message. -/
def splitHeaders (hs : List (String × String)) : List String × List (String × String) :=
  hs.foldl
    (fun acc p =>
      let v := (firstHeader hs p.1).getD ""
      if p.1 == "A" then (acc.1 ++ [v], acc.2) else (acc.1, acc.2 ++ [(p.1, v)]))
    ([], [])

/-- Lower-casing of a header name (header names are ASCII). -/
def lowerStr (s : String) : String := String.mk (s.data.map Char.toLower)

/-- Membership `email.message.__contains__` is case-insensitive on header names. -/
def hasHeaderCI (hs : List (String × String)) (name : String) : Bool :=
  hs.any (fun p => lowerStr p.1 == lowerStr name)

/-- One attachment part added by `eml.add_attachment(...)`. -/
structure AttPart where
  data : List Nat
  maintype : String
  subtype : String
  filename : String
deriving DecidableEq

/-- The outgoing `EmailMessage`: copied headers, body content, attachments. -/
structure EmlMsg where
  headers : List (String × String)
  content : String
  attachments : List AttPart
deriving DecidableEq

/-- The content-type inference:
`mime, _ = mimetypes.guess_type(att)` followed by
`ty = mime.split('/') if mime and len(mime.split('/')) == 2 else
['application', 'octet-stream']`. The platform mime table is the oracle
`guess`. -/
def mimeType (guess : String → Option String) (att : String) : String × String :=
  match guess att with
  | some mime =>
      if mime ≠ "" ∧ (mime.splitOn "/").length = 2 then
        ((mime.splitOn "/").headD "", (mime.splitOn "/").getLastD "")
      else ("application", "octet-stream")
  | none => ("application", "octet-stream")

/-- Python's `os.path.basename`: the part of the path after the final slash. -/
def basename (s : String) : String := (s.splitOn "/").getLastD s

/-- An exception escaping the `try` of `SendmailThread.run`. The handler
`except IOError: print("Can't read attachment: " + a)` refers to the unbound
name `a` (the loop variable is `att`), so an unreadable attachment raises a
NameError instead of logging and continuing. -/
inductive PyError where
  | nameError (name : String)
deriving DecidableEq

/-- The attachment loop of `SendmailThread.run`. The oracle `fs` maps an
attachment path to its bytes, `none` meaning `open(os.path.expanduser(att))`
raises IOError; in that case the except-handler itself raises a NameError on
the unbound name `a`, aborting the whole send. -/
def addAttachments (guess : String → Option String) (fs : String → Option (List Nat)) :
    List String → EmlMsg → Except PyError EmlMsg
  | [], eml => .ok eml
  | att :: rest, eml =>
      let ty := mimeType guess att
      match fs att with
      | some d =>
          addAttachments guess fs rest
            { eml with attachments :=
                eml.attachments ++ [{ data := d, maintype := ty.1, subtype := ty.2,
                                      filename := basename att }] }
      | none => .error (PyError.nameError "a")

/-- The `A` pseudo-header values of the draft, in loop order. -/
def draftAttachments (draft : Draft) : List String := (splitHeaders draft.headers).1

/-- The outgoing message before the attachment loop: the non-"A" headers, the
payload as content, and a "Date" header filled with the current local time
`now` when the draft has none. -/
def assembleEml (draft : Draft) (now : String) : EmlMsg :=
  let hs := (splitHeaders draft.headers).2
  let eml : EmlMsg := { headers := hs, content := draft.payload, attachments := [] }
  if hasHeaderCI eml.headers "Date" then eml
  else { eml with headers := eml.headers ++ [("Date", now)] }

/-- The fully assembled message of `SendmailThread.run`, or the exception
aborting the thread. -/
def buildEml (draft : Draft) (now : String) (guess : String → Option String)
    (fs : String → Option (List Nat)) : Except PyError EmlMsg :=
  addAttachments guess fs (draftAttachments draft) (assembleEml draft now)

/-- The observable behaviour of the mail-transfer agent subprocess: when (in
seconds) it exits, if ever, and with which code. -/
structure MtaBehavior where
  finishTime : Option Nat
  exitCode : Int
deriving DecidableEq

/-- The bounded wait of `sendmail.wait(30)`. -/
def sendmailWaitSeconds : Nat := 30

/-- The call `sendmail.wait(30)` raises TimeoutExpired exactly when the process has not
finished within the bounded wait. -/
def mtaTimesOut (mta : MtaBehavior) : Bool :=
  match mta.finishTime with
  | none => true
  | some t => decide (sendmailWaitSeconds < t)

/-- The compose-session status shown by the panel (the HTML status strings of
compose.py, as an enumeration). -/
inductive Status where
  | draft
  | sending
  | sent
  | error
  | timedOut
deriving DecidableEq

/-- One message appended to the sent maildir:
`m = mailbox.MaildirMessage(str(eml)); m.set_flags('S'); Maildir(...).add(m)`. -/
structure SentWrite where
  msg : EmlMsg
  flags : List Char
deriving DecidableEq

/-- The observable effects of one `SendmailThread.run` execution. `status` is
the panel status after the run (`sending` means it was never updated),
`mtaInput` is the message streamed to the transfer agent's standard input
(`none` when the agent was never launched), and `crashed` records an uncaught
exception killing the thread. The `done` signal is emitted in `finally` in
every case and is connected only to `panel.refresh`. -/
structure SendResult where
  status : Status
  sentWrites : List SentWrite
  repliedTags : List String
  notmuchNew : Bool
  invalidated : Bool
  mtaInput : Option EmlMsg
  crashed : Bool
deriving DecidableEq

/-- The method `SendmailThread.run`: assemble the message, feed it to the transfer agent,
wait up to 30 seconds, and on exit code 0 append the message to the sent
maildir with flag string "S", tag the replied-to message via the indexer,
run `notmuch new` and invalidate the panels; on a nonzero exit code only set
the error status; on TimeoutExpired only set the timed-out status. An
exception in the attachment loop aborts the run before the agent is
launched. -/
def sendmailRun (draft : Draft) (replyTo : Option Msg) (now : String)
    (guess : String → Option String) (fs : String → Option (List Nat))
    (mta : MtaBehavior) : SendResult :=
  match buildEml draft now guess fs with
  | .error _ =>
      { status := Status.sending, sentWrites := [], repliedTags := [],
        notmuchNew := false, invalidated := false, mtaInput := none, crashed := true }
  | .ok eml =>
      if mtaTimesOut mta then
        { status := Status.timedOut, sentWrites := [], repliedTags := [],
          notmuchNew := false, invalidated := false, mtaInput := some eml,
          crashed := false }
      else if mta.exitCode = 0 then
        { status := Status.sent,
          sentWrites := [{ msg := eml, flags := ['S'] }],
          repliedTags := match replyTo with | some r => [r.id] | none => [],
          notmuchNew := true, invalidated := true, mtaInput := some eml,
          crashed := false }
      else
        { status := Status.error, sentWrites := [], repliedTags := [],
          notmuchNew := false, invalidated := false, mtaInput := some eml,
          crashed := false }

/-- Decidable equality of `Except` results, for evaluating the embedding. -/
instance {e a : Type} [DecidableEq e] [DecidableEq a] : DecidableEq (Except e a)
  | .ok x, .ok y =>
      if h : x = y then .isTrue (congrArg Except.ok h)
      else .isFalse (fun hc => h (Except.ok.inj hc))
  | .ok _, .error _ => .isFalse (fun hc => Except.noConfusion hc)
  | .error _, .ok _ => .isFalse (fun hc => Except.noConfusion hc)
  | .error x, .error y =>
      if h : x = y then .isTrue (congrArg Except.error h)
      else .isFalse (fun hc => h (Except.error.inj hc))

/-- A mime oracle returning no guess, and an empty file system. -/
def noGuess : String → Option String := fun _ => none

/-- A file system on which every open fails. -/
def noFs : String → Option (List Nat) := fun _ => none

/-- The current local time used to fill a missing Date header. -/
def sampleNow : String := "Mon, 01 Jan 2024 00:00:00 +0000"

/-- A draft whose "A" pseudo-header points at a nonexistent file. -/
def c2Draft : Draft :=
  { headers := [("From", "a@x"), ("To", "b@x"), ("Subject", "hi"),
                ("A", "/nonexistent/file")],
    payload := "body" }

/-- A draft with no attachments. -/
def c3Draft : Draft :=
  { headers := [("From", "a@x"), ("To", "b@x"), ("Subject", "hi")],
    payload := "body" }

/-- The message assembled from `c3Draft` (Date filled in). -/
def c3Eml : EmlMsg :=
  { headers := [("From", "a@x"), ("To", "b@x"), ("Subject", "hi"),
                ("Date", sampleNow)],
    content := "body", attachments := [] }

/-- C2: a send whose draft carries an attachment header pointing at a missing
file does NOT log and skip the attachment: the except-handler references the
unbound name `a`, so the run raises a NameError, the transfer agent is never
launched, nothing is transmitted, and the status is stuck at "sending". -/
theorem sendmail_unreadable_attachment_aborts :
    (sendmailRun c2Draft none sampleNow noGuess noFs
        { finishTime := some 1, exitCode := 0 }).crashed = true
    ∧ (sendmailRun c2Draft none sampleNow noGuess noFs
        { finishTime := some 1, exitCode := 0 }).mtaInput = none
    ∧ (sendmailRun c2Draft none sampleNow noGuess noFs
        { finishTime := some 1, exitCode := 0 }).status = Status.sending
    ∧ (sendmailRun c2Draft none sampleNow noGuess noFs
        { finishTime := some 1, exitCode := 0 }).sentWrites = [] := by
  refine ⟨by decide, by decide, by decide, by decide⟩

/-- C3 counterexample: on a successful send the message appended to the sent
maildir carries the flag string "S" only — the "replied" flag 'R' is not
set, contrary to the claim that both "seen" and "replied" are set. -/
theorem sent_flags_counterexample :
    ((sendmailRun c3Draft (some (mkMsg "orig" 1 none)) sampleNow noGuess noFs
        { finishTime := some 1, exitCode := 0 }).sentWrites.map (fun w => w.flags))
      = [['S']]
    ∧ 'R' ∉ (['S'] : List Char) := by
  refine ⟨by decide, by decide⟩

/-- C3 amended: when the transfer agent exits with status zero, the assembled
message is appended to the sent maildir with only the "seen" flag set; if the
draft was a reply the original message is tagged "replied" via the indexer;
the indexer is asked to pick up the new message, the views are invalidated,
and the status becomes Sent. -/
theorem sendmail_success_spec (draft : Draft) (replyTo : Option Msg) (now : String)
    (guess : String → Option String) (fs : String → Option (List Nat))
    (mta : MtaBehavior) (eml : EmlMsg)
    (hEml : buildEml draft now guess fs = .ok eml)
    (hT : mtaTimesOut mta = false) (hC : mta.exitCode = 0) :
    sendmailRun draft replyTo now guess fs mta =
      { status := Status.sent,
        sentWrites := [{ msg := eml, flags := ['S'] }],
        repliedTags := match replyTo with | some r => [r.id] | none => [],
        notmuchNew := true, invalidated := true, mtaInput := some eml,
        crashed := false } := by
  unfold sendmailRun
  rw [hEml]
  simp [hT, hC]

/-- Witness for C3 amended, with a concrete reply draft and an agent exiting 0
after one second. -/
theorem sendmail_success_spec_witness :
    buildEml c3Draft sampleNow noGuess noFs = .ok c3Eml
    ∧ mtaTimesOut { finishTime := some 1, exitCode := 0 } = false
    ∧ ({ finishTime := some 1, exitCode := 0 } : MtaBehavior).exitCode = 0
    ∧ sendmailRun c3Draft (some (mkMsg "orig" 1 none)) sampleNow noGuess noFs
        { finishTime := some 1, exitCode := 0 } =
      { status := Status.sent,
        sentWrites := [{ msg := c3Eml, flags := ['S'] }],
        repliedTags := ["orig"], notmuchNew := true, invalidated := true,
        mtaInput := some c3Eml, crashed := false } :=
  ⟨by decide, by decide, by decide,
    sendmail_success_spec c3Draft (some (mkMsg "orig" 1 none)) sampleNow noGuess noFs
      { finishTime := some 1, exitCode := 0 } c3Eml (by decide) (by decide) (by decide)⟩

/-- C7: when the transfer agent exits with a nonzero status, or does not
finish within the 30-second bounded wait, no message is written to the sent
mailbox and no tagging is performed, and the status becomes Error
(nonzero exit) or TimedOut (bounded wait expired, process abandoned). -/
theorem sendmail_failure_spec (draft : Draft) (replyTo : Option Msg) (now : String)
    (guess : String → Option String) (fs : String → Option (List Nat))
    (mta : MtaBehavior) (eml : EmlMsg)
    (hEml : buildEml draft now guess fs = .ok eml)
    (hBad : mtaTimesOut mta = true ∨ mta.exitCode ≠ 0) :
    (sendmailRun draft replyTo now guess fs mta).sentWrites = []
    ∧ (sendmailRun draft replyTo now guess fs mta).repliedTags = []
    ∧ (sendmailRun draft replyTo now guess fs mta).status =
        (if mtaTimesOut mta then Status.timedOut else Status.error) := by
  unfold sendmailRun
  rw [hEml]
  rcases hBad with h | h
  · simp [h]
  · by_cases ht : mtaTimesOut mta <;> simp [ht, h]

/-- Witness for C7: a concrete agent exiting 1 after one second, and a
concrete agent that never exits. -/
theorem sendmail_failure_spec_witness :
    buildEml c3Draft sampleNow noGuess noFs = .ok c3Eml
    ∧ ({ finishTime := some 1, exitCode := 1 } : MtaBehavior).exitCode ≠ 0
    ∧ (sendmailRun c3Draft none sampleNow noGuess noFs
        { finishTime := some 1, exitCode := 1 }).status = Status.error
    ∧ (sendmailRun c3Draft none sampleNow noGuess noFs
        { finishTime := some 1, exitCode := 1 }).sentWrites = []
    ∧ mtaTimesOut { finishTime := none, exitCode := 0 } = true
    ∧ (sendmailRun c3Draft none sampleNow noGuess noFs
        { finishTime := none, exitCode := 0 }).status = Status.timedOut
    ∧ (sendmailRun c3Draft none sampleNow noGuess noFs
        { finishTime := none, exitCode := 0 }).sentWrites = [] :=
  ⟨by decide, by decide,
    (sendmail_failure_spec c3Draft none sampleNow noGuess noFs
      { finishTime := some 1, exitCode := 1 } c3Eml (by decide)
      (Or.inr (by decide))).2.2,
    (sendmail_failure_spec c3Draft none sampleNow noGuess noFs
      { finishTime := some 1, exitCode := 1 } c3Eml (by decide)
      (Or.inr (by decide))).1,
    by decide,
    (sendmail_failure_spec c3Draft none sampleNow noGuess noFs
      { finishTime := none, exitCode := 0 } c3Eml (by decide)
      (Or.inl (by decide))).2.2,
    (sendmail_failure_spec c3Draft none sampleNow noGuess noFs
      { finishTime := none, exitCode := 0 } c3Eml (by decide)
      (Or.inl (by decide))).1⟩

/-! ### EditorThread (compose.py, `EditorThread.run` / `edit` / `edit_done`) -/

/-- What the external editor subprocess does: either `subprocess.run` raises
(the editor cannot be started), or the editor runs, rewrites the temporary
file, and exits with some code, which `run` never inspects. -/
inductive EditorBehavior where
  | launchFailure
  | runs (exitCode : Int) (rewrite : String → String)

/-- The observable outcome of one `EditorThread.run`: the panel's
`message_string` afterwards, whether `done` was emitted (it is, in
`finally`), whether `edit_done` cleared the editor-thread handle (it is the
only slot of `done`), and whether an exception escaped `run`. -/
structure EditResult where
  message_string : String
  doneEmitted : Bool
  editorThreadCleared : Bool
  crashed : Bool
deriving DecidableEq

/-- The method `EditorThread.run`: write `message_string` to a temporary file, run the
editor on it, and read the file back. A launch failure skips the read-back,
leaving `message_string` untouched; otherwise the file's final content is
adopted whatever the exit code. `done` is emitted in `finally` either way. -/
def editorRun (orig : String) : EditorBehavior → EditResult
  | EditorBehavior.launchFailure =>
      { message_string := orig, doneEmitted := true, editorThreadCleared := true,
        crashed := true }
  | EditorBehavior.runs _ rewrite =>
      { message_string := rewrite orig, doneEmitted := true,
        editorThreadCleared := true, crashed := false }

/-- C9 counterexample: an editor that rewrites the file and exits abnormally
(code 1) leaves the draft with the rewritten content, not its pre-edit
content — the exit status is never checked. -/
theorem editor_abnormal_exit_counterexample :
    (editorRun "draft text" (EditorBehavior.runs 1 (fun _ => "mangled"))).message_string
      = "mangled"
    ∧ ("mangled" : String) ≠ "draft text"
    ∧ ((1 : Int) ≠ 0) := by
  refine ⟨by decide, by decide, by decide⟩

/-- C9 amended: if the editor process cannot be started, the draft keeps its
pre-edit content; if the editor runs, the temporary file's final content is
adopted unconditionally, its exit status ignored. In both cases `done` is
emitted and the editor-thread handle is cleared, so the session returns to
Draft and a later edit is possible. -/
theorem editor_run_spec (orig : String) (c : Int) (f : String → String) :
    editorRun orig EditorBehavior.launchFailure =
      { message_string := orig, doneEmitted := true, editorThreadCleared := true,
        crashed := true }
    ∧ editorRun orig (EditorBehavior.runs c f) =
      { message_string := f orig, doneEmitted := true, editorThreadCleared := true,
        crashed := false } :=
  ⟨rfl, rfl⟩

/-! ### ComposeView send-thread handle (compose.py, `send`) -/

/-- The compose session state relevant to sending: whether
`self.sendmail_thread` is set (non-None), and the panel status. -/
structure ComposeSession where
  sendmailThreadSet : Bool
  status : Status
deriving DecidableEq

/-- A fresh compose session: `self.sendmail_thread = None`, status draft. -/
def initSession : ComposeSession :=
  { sendmailThreadSet := false, status := Status.draft }

/-- The method `ComposeView.send`: starts a `SendmailThread` (returning `true`) only when
the handle is unset; otherwise it is a no-op. -/
def send (s : ComposeSession) : ComposeSession × Bool :=
  if s.sendmailThreadSet then (s, false)
  else ({ sendmailThreadSet := true, status := Status.sending }, true)

/-- The events that can touch the send machinery over a session's lifetime:
the user invoking `send()`, the send thread finishing with some outcome
status (its `done` signal is connected only to `panel.refresh`, which never
clears `sendmail_thread`), and any other UI event (none of which assign
`sendmail_thread`). -/
inductive SessionEvent where
  | sendKey
  | sendFinished (outcome : Status)
  | other

/-- One step of the session, returning the number of send attempts started. -/
def sessionStep : SessionEvent → ComposeSession → ComposeSession × Nat
  | SessionEvent.sendKey, s =>
      let r := send s
      (r.1, if r.2 then 1 else 0)
  | SessionEvent.sendFinished o, s => ({ s with status := o }, 0)
  | SessionEvent.other, s => (s, 0)

/-- A whole session lifetime: fold the events, counting started sends. -/
def runSession : List SessionEvent → ComposeSession → ComposeSession × Nat
  | [], s => (s, 0)
  | e :: es, s =>
      let r := sessionStep e s
      let r2 := runSession es r.1
      (r2.1, r.2 + r2.2)

/-- The maximal number of send attempts a state still allows. -/
def startBudget (s : ComposeSession) : Nat := if s.sendmailThreadSet then 0 else 1

theorem runSession_starts_le : ∀ (es : List SessionEvent) (s : ComposeSession),
    (runSession es s).2 ≤ startBudget s := by
  intro es
  induction es with
  | nil => intro s; exact Nat.zero_le _
  | cons e es ih =>
    intro s
    cases e with
    | sendKey =>
      cases hb : s.sendmailThreadSet with
      | true =>
        have h1 : sessionStep SessionEvent.sendKey s = (s, 0) := by
          simp [sessionStep, send, hb]
        calc (runSession (SessionEvent.sendKey :: es) s).2
            = (sessionStep SessionEvent.sendKey s).2
              + (runSession es (sessionStep SessionEvent.sendKey s).1).2 := rfl
          _ = 0 + (runSession es s).2 := by rw [h1]
          _ = (runSession es s).2 := Nat.zero_add _
          _ ≤ startBudget s := ih s
      | false =>
        have h1 : sessionStep SessionEvent.sendKey s =
            (({ sendmailThreadSet := true, status := Status.sending } : ComposeSession), 1) := by
          simp [sessionStep, send, hb]
        have h2 := ih ({ sendmailThreadSet := true, status := Status.sending } : ComposeSession)
        have h3 : startBudget { sendmailThreadSet := true, status := Status.sending } = 0 := rfl
        have h4 : startBudget s = 1 := by simp [startBudget, hb]
        calc (runSession (SessionEvent.sendKey :: es) s).2
            = (sessionStep SessionEvent.sendKey s).2
              + (runSession es (sessionStep SessionEvent.sendKey s).1).2 := rfl
          _ = 1 + (runSession es { sendmailThreadSet := true, status := Status.sending }).2 := by
              rw [h1]
          _ ≤ 1 + 0 := by rw [h3] at h2; omega
          _ = startBudget s := by rw [h4]
    | sendFinished o =>
      calc (runSession (SessionEvent.sendFinished o :: es) s).2
          = 0 + (runSession es { s with status := o }).2 := rfl
        _ = (runSession es { s with status := o }).2 := Nat.zero_add _
        _ ≤ startBudget { s with status := o } := ih _
        _ = startBudget s := rfl
    | other =>
      calc (runSession (SessionEvent.other :: es) s).2
          = 0 + (runSession es s).2 := rfl
        _ = (runSession es s).2 := Nat.zero_add _
        _ ≤ startBudget s := ih s

/-- C10: over a session's lifetime at most one send attempt is ever started:
`send()` starts a thread only when the handle is unset, the handle is never
cleared once set (no completion event clears it), so a second `send()` — in
particular a retry after a failed send — is a no-op. -/
theorem at_most_one_send_attempt (es : List SessionEvent) :
    (runSession es initSession).2 ≤ 1
    ∧ ∀ s : ComposeSession, s.sendmailThreadSet = true → send s = (s, false) := by
  constructor
  · have h := runSession_starts_le es initSession
    have hb : startBudget initSession = 1 := rfl
    rw [hb] at h
    exact h
  · intro s hs
    simp [send, hs]

/-- Witness for C10: a lifetime with two send invocations and a completed
(error) send in between starts exactly one send; a session with the handle
set no-ops on `send`. -/
theorem at_most_one_send_attempt_witness :
    (runSession [SessionEvent.sendKey, SessionEvent.sendFinished Status.error,
        SessionEvent.sendKey] initSession).2 ≤ 1
    ∧ ({ sendmailThreadSet := true, status := Status.error } : ComposeSession).sendmailThreadSet
        = true
    ∧ send { sendmailThreadSet := true, status := Status.error } =
        ({ sendmailThreadSet := true, status := Status.error }, false) :=
  ⟨(at_most_one_send_attempt [SessionEvent.sendKey, SessionEvent.sendFinished Status.error,
      SessionEvent.sendKey]).1,
    by decide,
    (at_most_one_send_attempt []).2
      { sendmailThreadSet := true, status := Status.error } (by decide)⟩

end Dodo
